import Mathlib

/-!
Shallow embedding of the SpoolmanSync Home Assistant integration:
the coordinator refresh (custom_components/spoolmansync/init),
the tray select entity (select.py) and the tray sensor entity (sensor.py).

JSON data coming from the remote service is modelled by the inductive
type JValue.  Python-level behaviour that the code relies on
(truthiness tests, str.strip, json.loads, int()) is modelled
explicitly.  A Python exception escaping a routine is modelled by the
error case of Except.
-/

namespace SpoolmanSync

/-- A JSON value as decoded by Python.  Non-integral numbers are kept by
their lexeme (they are never compared against strings, so only their
truthiness matters). -/
inductive JValue where
  | null : JValue
  | bool : Bool → JValue
  | int : Int → JValue
  | num : String → JValue
  | str : String → JValue
  | arr : List JValue → JValue
  | obj : List (String × JValue) → JValue

/-- Truthiness of a non-integral numeric lexeme: NaN and the infinities are
truthy, a numeric literal is truthy unless its mantissa is all zeros. -/
def numTruthy (lex : String) : Bool :=
  if lex = "NaN" || lex = "Infinity" || lex = "-Infinity" then true
  else (lex.toList.takeWhile (fun c => c ≠ 'e' ∧ c ≠ 'E')).any
    (fun c => decide ('1' ≤ c) && decide (c ≤ '9'))

/-- Python truthiness of a JSON value, as used by the guards
of the form if active_tray: in select.py and sensor.py. -/
def jtruthy : JValue → Bool
  | .null => false
  | .bool b => b
  | .int n => n != 0
  | .num lex => numTruthy lex
  | .str s => s != ""
  | .arr xs => !xs.isEmpty
  | .obj fs => !fs.isEmpty

/-- Python equality between a decoded JSON value and a str: only a str
compares equal to a str. -/
def jeqStr : JValue → String → Bool
  | .str s, t => s == t
  | _, _ => false

/-- Python s.strip with the quote character as argument: removes every
leading and every trailing quote character. -/
def stripQuotes (s : String) : String :=
  (((s.toList.dropWhile (fun c => c == '"')).reverse.dropWhile
      (fun c => c == '"')).reverse).asString

/-- The whitespace characters stripped by Python str.strip (ASCII part):
space, tab, newline, carriage return, vertical tab, form feed. -/
def isPyWs (c : Char) : Bool :=
  c.toNat == 32 || c.toNat == 9 || c.toNat == 10 ||
    c.toNat == 13 || c.toNat == 11 || c.toNat == 12

/-- Python str.strip with no argument on a list of characters. -/
def pyStripList (cs : List Char) : List Char :=
  ((cs.dropWhile isPyWs).reverse.dropWhile isPyWs).reverse

/-- Python str.strip with no argument, as applied to the spool labels. -/
def pyStrip (s : String) : String :=
  (pyStripList s.toList).asString

/-- The whitespace characters skipped by the JSON grammar. -/
def isJsonWs (c : Char) : Bool :=
  c == ' ' || c == '\t' || c == '\n' || c == '\r'

/-- Value of a hexadecimal digit, for string unicode escapes. -/
def hexVal (c : Char) : Option Nat :=
  if decide ('0' ≤ c) && decide (c ≤ '9') then some (c.toNat - 48)
  else if decide ('a' ≤ c) && decide (c ≤ 'f') then some (c.toNat - 87)
  else if decide ('A' ≤ c) && decide (c ≤ 'F') then some (c.toNat - 55)
  else none

/-- Short escape characters accepted after a backslash in a JSON string:
the quote, backslash and slash map to themselves, the letters b, f, n, r
and t map to the control characters 8, 12, 10, 13 and 9. -/
def escChar (c : Char) : Option Char :=
  match c with
  | '"' => some c
  | '\\' => some c
  | '/' => some c
  | 'b' => some (Char.ofNat 8)
  | 'f' => some (Char.ofNat 12)
  | 'n' => some (Char.ofNat 10)
  | 'r' => some (Char.ofNat 13)
  | 't' => some (Char.ofNat 9)
  | _ => none

/-- Code point of a four-digit unicode escape. -/
def hex4 (a b c d : Char) : Option Nat :=
  match hexVal a, hexVal b, hexVal c, hexVal d with
  | some x, some y, some z, some w => some (((x * 16 + y) * 16 + z) * 16 + w)
  | _, _, _, _ => none

/-- Turn a scalar value into a character; surrogate halves that Python would
keep as lone surrogates are replaced, as Lean characters cannot hold them. -/
def charOfCode (n : Nat) : Char :=
  if n < 0xd800 then Char.ofNat n
  else if 0xdfff < n ∧ n < 0x110000 then Char.ofNat n
  else '�'

/-- Parse the body of a JSON string (the opening quote already consumed),
returning the decoded characters and the input after the closing quote.
Strict mode: unescaped control characters are rejected. -/
def parseJStr : Nat → List Char → Option (List Char × List Char)
  | 0, _ => none
  | _, [] => none
  | fuel + 1, c :: rest =>
    if c == '"' then some ([], rest)
    else if c == '\\' then
      match rest with
      | [] => none
      | e :: rest2 =>
        if e == 'u' then
          match rest2 with
          | h1 :: h2 :: h3 :: h4 :: rest3 =>
            match hex4 h1 h2 h3 h4 with
            | none => none
            | some n =>
              if 0xd800 ≤ n ∧ n ≤ 0xdbff then
                match rest3 with
                | '\\' :: 'u' :: g1 :: g2 :: g3 :: g4 :: rest4 =>
                  match hex4 g1 g2 g3 g4 with
                  | some m =>
                    if 0xdc00 ≤ m ∧ m ≤ 0xdfff then
                      (parseJStr fuel rest4).map
                        (fun p =>
                          (charOfCode (0x10000 + (n - 0xd800) * 0x400 + (m - 0xdc00)) :: p.1,
                           p.2))
                    else
                      (parseJStr fuel rest3).map (fun p => ('�' :: p.1, p.2))
                  | none => none
                | _ =>
                  (parseJStr fuel rest3).map (fun p => ('�' :: p.1, p.2))
              else if 0xdc00 ≤ n ∧ n ≤ 0xdfff then
                (parseJStr fuel rest3).map (fun p => ('�' :: p.1, p.2))
              else
                (parseJStr fuel rest3).map (fun p => (charOfCode n :: p.1, p.2))
          | _ => none
        else
          match escChar e with
          | some d => (parseJStr fuel rest2).map (fun p => (d :: p.1, p.2))
          | none => none
    else if c.toNat < 0x20 then none
    else (parseJStr fuel rest).map (fun p => (c :: p.1, p.2))

/-- Decimal digit test used by the number grammar and by int (). -/
def isDig (c : Char) : Bool :=
  decide (48 ≤ c.toNat) && decide (c.toNat ≤ 57)

/-- Value of a list of decimal digits. -/
def digitsVal (ds : List Char) : Nat :=
  ds.foldl (fun a c => a * 10 + (c.toNat - 48)) 0

/-- Integer part of a JSON number: a single zero, or a nonzero digit
followed by digits.  Returns the consumed digits and the rest. -/
def parseIntPart : List Char → Option (List Char × List Char)
  | [] => none
  | c :: rest =>
    if c == '0' then some ([c], rest)
    else if decide ('1' ≤ c) && decide (c ≤ '9') then
      some (c :: rest.takeWhile isDig, rest.dropWhile isDig)
    else none

/-- Fraction part: a dot followed by at least one digit, if present. -/
def parseFracPart : List Char → Option (List Char × List Char)
  | '.' :: rest =>
    match rest.takeWhile isDig with
    | [] => none
    | ds => some ('.' :: ds, rest.dropWhile isDig)
  | cs => some ([], cs)

/-- Exponent part: e or E, an optional sign, then at least one digit. -/
def parseExpPart : List Char → Option (List Char × List Char)
  | c :: rest =>
    if c == 'e' || c == 'E' then
      match rest with
      | s :: rest2 =>
        if s == '+' || s == '-' then
          match rest2.takeWhile isDig with
          | [] => none
          | ds => some (c :: s :: ds, rest2.dropWhile isDig)
        else
          match rest.takeWhile isDig with
          | [] => none
          | ds => some (c :: ds, rest.dropWhile isDig)
      | [] => none
    else some ([], c :: rest)
  | [] => some ([], [])

/-- Parse a JSON number starting at a sign or digit.  An integral literal
becomes an int value, anything with a fraction or exponent keeps its
lexeme as a non-integral number. -/
def parseJNum (cs : List Char) : Option (JValue × List Char) :=
  let signed := cs.head? == some '-'
  let body := if signed then cs.tail else cs
  match parseIntPart body with
  | none => none
  | some (ip, r1) =>
    match parseFracPart r1 with
    | none => none
    | some (fp, r2) =>
      match parseExpPart r2 with
      | none => none
      | some (ep, r3) =>
        if fp.isEmpty && ep.isEmpty then
          some (.int (if signed then -(digitsVal ip : Int) else (digitsVal ip : Int)), r3)
        else
          some (.num ((if signed then '-' :: ip ++ fp ++ ep else ip ++ fp ++ ep).asString), r3)

mutual

/-- Parse one JSON value at the head of the input (whitespace already
skipped), following the grammar accepted by Python json decoding,
including the NaN and Infinity extensions. -/
def parseJVal : Nat → List Char → Option (JValue × List Char)
  | 0, _ => none
  | fuel + 1, cs =>
    match cs with
    | [] => none
    | '"' :: rest =>
      (parseJStr (rest.length + 1) rest).map (fun p => (JValue.str p.1.asString, p.2))
    | '{' :: rest =>
      (match rest.dropWhile isJsonWs with
       | '}' :: r2 => some (JValue.obj [], r2)
       | r2 =>
         (parseJMembers fuel r2).map (fun p => (JValue.obj p.1, p.2)))
    | '[' :: rest =>
      (match rest.dropWhile isJsonWs with
       | ']' :: r2 => some (JValue.arr [], r2)
       | r2 =>
         (parseJElems fuel r2).map (fun p => (JValue.arr p.1, p.2)))
    | 't' :: 'r' :: 'u' :: 'e' :: rest => some (.bool true, rest)
    | 'f' :: 'a' :: 'l' :: 's' :: 'e' :: rest => some (.bool false, rest)
    | 'n' :: 'u' :: 'l' :: 'l' :: rest => some (.null, rest)
    | 'N' :: 'a' :: 'N' :: rest => some (.num ("NaN"), rest)
    | 'I' :: 'n' :: 'f' :: 'i' :: 'n' :: 'i' :: 't' :: 'y' :: rest =>
      some (.num ("Infinity"), rest)
    | '-' :: 'I' :: 'n' :: 'f' :: 'i' :: 'n' :: 'i' :: 't' :: 'y' :: rest =>
      some (.num ("-Infinity"), rest)
    | c :: rest =>
      if c == '-' || isDig c then parseJNum (c :: rest) else none

/-- Parse the members of a JSON object, positioned at the first key. -/
def parseJMembers : Nat → List Char → Option (List (String × JValue) × List Char)
  | 0, _ => none
  | fuel + 1, cs =>
    match cs with
    | '"' :: rest =>
      match parseJStr (rest.length + 1) rest with
      | none => none
      | some (key, r1) =>
        match r1.dropWhile isJsonWs with
        | ':' :: r2 =>
          match parseJVal fuel (r2.dropWhile isJsonWs) with
          | none => none
          | some (v, r3) =>
            match r3.dropWhile isJsonWs with
            | ',' :: r4 =>
              (parseJMembers fuel (r4.dropWhile isJsonWs)).map
                (fun p => ((key.asString, v) :: p.1, p.2))
            | '}' :: r4 => some ([(key.asString, v)], r4)
            | _ => none
        | _ => none
    | _ => none

/-- Parse the elements of a JSON array, positioned at the first element. -/
def parseJElems : Nat → List Char → Option (List JValue × List Char)
  | 0, _ => none
  | fuel + 1, cs =>
    match parseJVal fuel cs with
    | none => none
    | some (v, r1) =>
      match r1.dropWhile isJsonWs with
      | ',' :: r2 => (parseJElems fuel (r2.dropWhile isJsonWs)).map (fun p => (v :: p.1, p.2))
      | ']' :: r2 => some ([v], r2)
      | _ => none

end

/-- Model of Python json.loads on a str: skip whitespace, parse one value,
require the input to be exhausted.  none models JSONDecodeError. -/
def json_loads (s : String) : Option JValue :=
  match parseJVal (2 * s.length + 2) (s.toList.dropWhile isJsonWs) with
  | some (v, rest) => if (rest.dropWhile isJsonWs).isEmpty then some v else none
  | none => none

/-- Model of Python json.loads applied to an arbitrary decoded value, as the
entities do with the active-tray field: a non-str argument raises TypeError,
a str argument is parsed.  none covers both kinds of exception, each caught
by the surrounding handler in the source. -/
def loadsValue : JValue → Option JValue
  | .str s => json_loads s
  | _ => none

/-- A spool record, holding the fields the integration reads: the numeric id,
the chain filament.vendor.name, filament.material and filament.name
(none when the key is missing along the chain), and extra.active_tray
(none when the extra dict or the key is missing). -/
structure Spool where
  id : Int
  vendorName : Option String
  material : Option String
  filamentName : Option String
  activeTray : Option JValue

/-- A Python exception escaping one of the entity routines. -/
inductive PyErr where
  | attributeError
deriving DecidableEq

/-- The display label built identically at select.py lines 89-92 (options),
108-111 (current_option, JSON branch) and 114-117 (current_option,
fallback branch): the formatted string, stripped. -/
def spoolLabel (sp : Spool) : String :=
  pyStrip ("#" ++ toString sp.id ++ " " ++ sp.vendorName.getD ("Unknown") ++ " " ++
    sp.material.getD ("Unknown") ++ " " ++ sp.filamentName.getD (""))

/-- SpoolmanTraySelect.options (select.py lines 83-94): the sentinel None
followed by one label per spool. -/
def select_options (spools : List Spool) : List String :=
  "None" :: spools.map spoolLabel

/-- SpoolmanTraySelect.current_option (select.py lines 96-118): scan the
spools; skip a falsy active_tray; try json.loads and compare the decoded
value with the tray id; on exception fall back to comparing the
quote-stripped raw value, which itself raises AttributeError when the raw
value is not a str.  Returns the sentinel None when no spool matches. -/
def current_option (trayId : String) : List Spool → Except PyErr String
  | [] => .ok ("None")
  | sp :: rest =>
    match sp.activeTray with
    | none => current_option trayId rest
    | some av =>
      if jtruthy av then
        match loadsValue av with
        | some v =>
          if jeqStr v trayId then .ok (spoolLabel sp) else current_option trayId rest
        | none =>
          match av with
          | .str s =>
            if stripQuotes s == trayId then .ok (spoolLabel sp)
            else current_option trayId rest
          | _ => .error .attributeError
      else current_option trayId rest

/-- SpoolmanTraySensor.native_value (sensor.py lines 65-80): the same scan
as current_option, returning the string Spool followed by the id for a
match and No Spool when no spool matches. -/
def native_value (trayId : String) : List Spool → Except PyErr String
  | [] => .ok ("No Spool")
  | sp :: rest =>
    match sp.activeTray with
    | none => native_value trayId rest
    | some av =>
      if jtruthy av then
        match loadsValue av with
        | some v =>
          if jeqStr v trayId then .ok ("Spool #" ++ toString sp.id)
          else native_value trayId rest
        | none =>
          match av with
          | .str s =>
            if stripQuotes s == trayId then .ok ("Spool #" ++ toString sp.id)
            else native_value trayId rest
          | _ => .error .attributeError
      else native_value trayId rest

/-- The unassign scan of SpoolmanTraySelect.async_select_option
(select.py lines 126-139): the same matching loop, breaking with the
first matching spool's id. -/
def findCurrentSpoolId (trayId : String) : List Spool → Except PyErr (Option Int)
  | [] => .ok none
  | sp :: rest =>
    match sp.activeTray with
    | none => findCurrentSpoolId trayId rest
    | some av =>
      if jtruthy av then
        match loadsValue av with
        | some v =>
          if jeqStr v trayId then .ok (some sp.id) else findCurrentSpoolId trayId rest
        | none =>
          match av with
          | .str s =>
            if stripQuotes s == trayId then .ok (some sp.id)
            else findCurrentSpoolId trayId rest
          | _ => .error .attributeError
      else findCurrentSpoolId trayId rest

/-- The matching decision made for one active-tray value by each of the
three scans above. -/
def trayMatch (trayId : String) (av : JValue) : Except PyErr Bool :=
  if jtruthy av then
    match loadsValue av with
    | some v => .ok (jeqStr v trayId)
    | none =>
      match av with
      | .str s => .ok (stripQuotes s == trayId)
      | _ => .error .attributeError
  else .ok false

/-- The common scan underlying current_option, native_value and the
unassign loop: the first spool whose active tray matches. -/
def findActiveSpool (trayId : String) : List Spool → Except PyErr (Option Spool)
  | [] => .ok none
  | sp :: rest =>
    match sp.activeTray with
    | none => findActiveSpool trayId rest
    | some av =>
      match trayMatch trayId av with
      | .error e => .error e
      | .ok true => .ok (some sp)
      | .ok false => findActiveSpool trayId rest

/-- Validate the digits of a Python int literal: underscores may appear
only between digits. -/
def stripUnderscores : List Char → Option (List Char)
  | [] => some []
  | c :: rest =>
    if isDig c then (stripUnderscores rest).map (fun ds => c :: ds)
    else if c == '_' then
      match rest with
      | d :: _ => if isDig d then stripUnderscores rest else none
      | [] => none
    else none

/-- The digit run of a Python int literal: must start with a digit. -/
def pyIntNat (cs : List Char) : Option Nat :=
  match cs with
  | [] => none
  | c :: _ =>
    if isDig c then (stripUnderscores cs).map digitsVal else none

/-- Model of the Python int constructor on a str: strip whitespace, accept
an optional sign and decimal digits (with underscores between digits).
none models ValueError. -/
def pyInt (s : String) : Option Int :=
  match pyStripList s.toList with
  | '-' :: rest => (pyIntNat rest).map (fun n => -(n : Int))
  | '+' :: rest => (pyIntNat rest).map (fun n => (n : Int))
  | rest => (pyIntNat rest).map (fun n => (n : Int))

/-- The id extraction of the assign path (select.py line 151):
int of the first space-separated token with every hash sign removed. -/
def parseSpoolId (opt : String) : Option Int :=
  pyInt (((opt.toList.takeWhile (fun c => c != ' ')).filter (fun c => c != '#')).asString)

/-- An HTTP write issued by async_select_option, with its full URL. -/
inductive ApiRequest where
  | post (url : String) (spoolId : Int) (trayId : String)
  | delete (url : String) (spoolId : Int)
deriving DecidableEq

/-- The observable outcome of a completed async_select_option call: the
write requests issued, whether an error was logged, and whether a
coordinator refresh was requested. -/
structure SelectOutcome where
  requests : List ApiRequest
  loggedError : Bool
  refreshed : Bool
deriving DecidableEq

/-- SpoolmanTraySelect.async_select_option (select.py lines 120-161).
The status argument is the HTTP status the service returns to the single
request, when one is made.  Selecting None runs the unassign scan and
issues a DELETE when the found id is truthy; any other option parses the
id from the option string and issues a POST, logging a parse failure.
A non-200 status is logged.  A refresh is requested at the end; the
error case models an exception escaping before that point. -/
def async_select_option (url trayId : String) (spools : List Spool) (opt : String)
    (status : Nat) : Except PyErr SelectOutcome :=
  if opt == "None" then
    match findCurrentSpoolId trayId spools with
    | .error e => .error e
    | .ok currentSpoolId =>
      match currentSpoolId with
      | some i =>
        if i != 0 then
          .ok ⟨[.delete (url ++ "/api/spools") i], status != 200, true⟩
        else .ok ⟨[], false, true⟩
      | none => .ok ⟨[], false, true⟩
  else
    match parseSpoolId opt with
    | some i => .ok ⟨[.post (url ++ "/api/spools") i trayId], status != 200, true⟩
    | none => .ok ⟨[], true, true⟩

/-- One HTTP GET as seen by the coordinator refresh: a status with a decoded
JSON body, or an exception (transport error or undecodable body). -/
inductive FetchResult where
  | response (status : Nat) (body : JValue)
  | exn

/-- The dictionary returned by a successful refresh. -/
structure CoordinatorData where
  printers : JValue
  spools : JValue

/-- Python dict.get with a default on a decoded JSON value: none models the
AttributeError raised when the receiver is not a dict.  A JSON object with
duplicate keys decodes to a dict keeping the last occurrence. -/
def dictGet (v : JValue) (key : String) (dflt : JValue) : Option JValue :=
  match v with
  | .obj fs =>
    match fs.reverse.find? (fun p => p.1 == key) with
    | some p => some p.2
    | none => some dflt
  | _ => none

/-- async_get_data (custom_components/spoolmansync, lines 22-40): GET the
printers, then the spools; any non-200 status, transport exception, or
error while reading the bodies raises UpdateFailed (the error case).
Returns the GET URLs issued together with the result. -/
def async_get_data (url : String) (printersResp spoolsResp : FetchResult) :
    List String × Except Unit CoordinatorData :=
  match printersResp with
  | .exn => ([url ++ "/api/printers"], .error ())
  | .response st body =>
    if st != 200 then ([url ++ "/api/printers"], .error ())
    else
      match spoolsResp with
      | .exn => ([url ++ "/api/printers", url ++ "/api/spools"], .error ())
      | .response st2 body2 =>
        if st2 != 200 then
          ([url ++ "/api/printers", url ++ "/api/spools"], .error ())
        else
          match dictGet body ("printers") (.arr []), dictGet body2 ("spools") (.arr []) with
          | some p, some s =>
            ([url ++ "/api/printers", url ++ "/api/spools"], .ok ⟨p, s⟩)
          | _, _ => ([url ++ "/api/printers", url ++ "/api/spools"], .error ())

/-- A spool record whose active-tray field is absent, falsy, or a string:
the shape the remote service actually produces (it stores extra values as
JSON strings), under which the matching scans cannot raise. -/
def benignTray (sp : Spool) : Bool :=
  match sp.activeTray with
  | none => true
  | some (.str _) => true
  | some av => !(jtruthy av)

/-- The decoding relation of the specification: a spool's active-tray field
decodes, via strict JSON decoding or via the quote-stripped fallback, to
the given tray identifier. -/
def decodesToTray (trayId : String) (sp : Spool) : Bool :=
  match sp.activeTray with
  | some (.str s) =>
    (match json_loads s with
     | some v => jeqStr v trayId
     | none => stripQuotes s == trayId)
  | _ => false

/-- Modelled from the spec: trailing whitespace trimmed (no leading trim). -/
def rstripTrailing (s : String) : String :=
  ((s.toList.reverse.dropWhile isPyWs).reverse).asString

/-- Modelled from the spec: the label is the hash sign, the id, the vendor,
the material and the name separated by spaces, with trailing whitespace
trimmed, missing vendor and material defaulting to Unknown and missing
name to the empty string. -/
def specLabel (sp : Spool) : String :=
  rstripTrailing ("#" ++ toString sp.id ++ " " ++ sp.vendorName.getD ("Unknown") ++ " " ++
    sp.material.getD ("Unknown") ++ " " ++ sp.filamentName.getD (""))

/-! ### Character and digit facts -/

lemma isDig_iff (c : Char) : isDig c = true ↔ 48 ≤ c.toNat ∧ c.toNat ≤ 57 := by
  simp [isDig]

lemma isDig_not_ws (c : Char) (h : isDig c = true) : isPyWs c = false := by
  rw [isDig_iff] at h
  simp only [isPyWs, Bool.or_eq_false_iff, beq_eq_false_iff_ne, ne_eq]
  omega

lemma not_ws_ne_space {c : Char} (h : isPyWs c = false) : c ≠ ' ' := by
  rintro rfl
  simp [isPyWs] at h

lemma isDig_ne_hash {c : Char} (h : isDig c = true) : c ≠ '#' := by
  rw [isDig_iff] at h
  rintro rfl
  simp at h

lemma digitChar_isDig (m : Nat) (h : m < 10) : isDig (Nat.digitChar m) = true := by
  interval_cases m <;> decide

lemma digitChar_val (m : Nat) (h : m < 10) : (Nat.digitChar m).toNat - 48 = m := by
  interval_cases m <;> decide

/-! ### Correctness of the decimal representation of Nat and Int -/

lemma toDigitsCore_append (b : Nat) :
    ∀ (fuel n : Nat) (ds : List Char),
      Nat.toDigitsCore b fuel n ds = Nat.toDigitsCore b fuel n [] ++ ds := by
  intro fuel
  induction fuel with
  | zero => intro n ds; simp [Nat.toDigitsCore]
  | succ fuel ih =>
    intro n ds
    simp only [Nat.toDigitsCore]
    by_cases h : n / b = 0
    · simp [h]
    · simp only [h, if_false]
      rw [ih (n / b) (Nat.digitChar (n % b) :: ds), ih (n / b) [Nat.digitChar (n % b)]]
      simp

lemma digitsVal_append (xs : List Char) (c : Char) :
    digitsVal (xs ++ [c]) = digitsVal xs * 10 + (c.toNat - 48) := by
  simp [digitsVal, List.foldl_append]

lemma toDigitsCore_val :
    ∀ (fuel n : Nat), n < fuel → digitsVal (Nat.toDigitsCore 10 fuel n []) = n := by
  intro fuel
  induction fuel with
  | zero => intro n h; omega
  | succ fuel ih =>
    intro n h
    simp only [Nat.toDigitsCore]
    by_cases h0 : n / 10 = 0
    · simp only [h0, if_true]
      have hlt : n % 10 < 10 := Nat.mod_lt _ (by omega)
      have hv := digitChar_val (n % 10) hlt
      simp only [digitsVal, List.foldl_cons, List.foldl_nil]
      omega
    · simp only [h0, if_false]
      rw [toDigitsCore_append, digitsVal_append]
      have hdiv : n / 10 < n := Nat.div_lt_self (by omega) (by omega)
      rw [ih (n / 10) (by omega)]
      have hlt : n % 10 < 10 := Nat.mod_lt _ (by omega)
      have hv := digitChar_val (n % 10) hlt
      omega

lemma toDigitsCore_all_digits :
    ∀ (fuel n : Nat), ∀ c ∈ Nat.toDigitsCore 10 fuel n [], isDig c = true := by
  intro fuel
  induction fuel with
  | zero => intro n c hc; simp [Nat.toDigitsCore] at hc
  | succ fuel ih =>
    intro n c hc
    simp only [Nat.toDigitsCore] at hc
    by_cases h0 : n / 10 = 0
    · simp only [h0, if_true, List.mem_singleton] at hc
      subst hc
      exact digitChar_isDig _ (Nat.mod_lt _ (by omega))
    · rw [if_neg h0, toDigitsCore_append, List.mem_append, List.mem_singleton] at hc
      rcases hc with hc | hc
      · exact ih (n / 10) c hc
      · subst hc
        exact digitChar_isDig _ (Nat.mod_lt _ (by omega))

lemma toDigitsCore_ne_nil (fuel n : Nat) (h : 0 < fuel) :
    Nat.toDigitsCore 10 fuel n [] ≠ [] := by
  cases fuel with
  | zero => omega
  | succ fuel =>
    simp only [Nat.toDigitsCore]
    by_cases h0 : n / 10 = 0
    · simp [h0]
    · rw [if_neg h0, toDigitsCore_append]
      simp

lemma natRepr_toList (n : Nat) : (Nat.repr n).toList = Nat.toDigitsCore 10 (n + 1) n [] := rfl

lemma natRepr_val (n : Nat) : digitsVal (Nat.repr n).toList = n := by
  rw [natRepr_toList]
  exact toDigitsCore_val (n + 1) n (by omega)

lemma natRepr_all_digits (n : Nat) : ∀ c ∈ (Nat.repr n).toList, isDig c = true := by
  rw [natRepr_toList]
  exact toDigitsCore_all_digits (n + 1) n

lemma natRepr_toList_ne_nil (n : Nat) : (Nat.repr n).toList ≠ [] := by
  rw [natRepr_toList]
  exact toDigitsCore_ne_nil (n + 1) n (by omega)

/-! ### Roundtrip of pyInt on the decimal representation -/

lemma stripUnderscores_digits :
    ∀ cs : List Char, (∀ c ∈ cs, isDig c = true) → stripUnderscores cs = some cs := by
  intro cs
  induction cs with
  | nil => intro _; rfl
  | cons c rest ih =>
    intro h
    have hc := h c (List.mem_cons_self c rest)
    simp only [stripUnderscores, hc, if_true]
    rw [ih (fun d hd => h d (List.mem_cons_of_mem c hd))]
    rfl

lemma pyIntNat_digits (cs : List Char) (hne : cs ≠ []) (h : ∀ c ∈ cs, isDig c = true) :
    pyIntNat cs = some (digitsVal cs) := by
  cases cs with
  | nil => exact absurd rfl hne
  | cons c rest =>
    have hc := h c (List.mem_cons_self c rest)
    simp only [pyIntNat, hc, if_true]
    rw [stripUnderscores_digits _ h]
    rfl

lemma dropWhile_of_all_neg {p : Char → Bool} :
    ∀ {l : List Char}, (∀ c ∈ l, p c = false) → l.dropWhile p = l := by
  intro l h
  cases l with
  | nil => rfl
  | cons c rest =>
    rw [List.dropWhile_cons, if_neg]
    simp [h c (List.mem_cons_self c rest)]

lemma pyStripList_of_all_not_ws {l : List Char} (h : ∀ c ∈ l, isPyWs c = false) :
    pyStripList l = l := by
  unfold pyStripList
  rw [dropWhile_of_all_neg h, dropWhile_of_all_neg, List.reverse_reverse]
  intro c hc
  exact h c (List.mem_reverse.mp hc)

lemma pyInt_natRepr (m : Nat) : pyInt (Nat.repr m) = some (m : Int) := by
  unfold pyInt
  have hd := natRepr_all_digits m
  have hne := natRepr_toList_ne_nil m
  rw [pyStripList_of_all_not_ws (fun c hc => isDig_not_ws c (hd c hc))]
  cases hcs : (Nat.repr m).toList with
  | nil => exact absurd hcs hne
  | cons c rest =>
    have hc : isDig c = true := hd c (by rw [hcs]; exact List.mem_cons_self c rest)
    have hcm : c ≠ '-' := by
      rw [isDig_iff] at hc
      rintro rfl
      simp at hc
    have hcp : c ≠ '+' := by
      rw [isDig_iff] at hc
      rintro rfl
      simp at hc
    have hv : pyIntNat (c :: rest) = some (digitsVal (c :: rest)) := by
      apply pyIntNat_digits _ (by simp)
      intro d hdm
      exact hd d (by rw [hcs]; exact hdm)
    have hval : digitsVal (c :: rest) = m := by
      have := natRepr_val m
      rw [hcs] at this
      exact this
    split
    · rename_i r heq
      injection heq with h1 _
      exact absurd h1 hcm
    · rename_i r heq
      injection heq with h1 _
      exact absurd h1 hcp
    · rw [hv, hval]
      rfl

lemma pyInt_intToString (i : Int) : pyInt (toString i) = some i := by
  cases i with
  | ofNat m => exact pyInt_natRepr m
  | negSucc m =>
    unfold pyInt
    have htl : (toString (Int.negSucc m)).toList = '-' :: (Nat.repr (m + 1)).toList := rfl
    rw [htl]
    have hws : ∀ c ∈ '-' :: (Nat.repr (m + 1)).toList, isPyWs c = false := by
      intro c hc
      rcases List.mem_cons.mp hc with rfl | hc
      · decide
      · exact isDig_not_ws c (natRepr_all_digits (m + 1) c hc)
    rw [pyStripList_of_all_not_ws hws]
    show (pyIntNat (Nat.repr (m + 1)).toList).map (fun n => -(n : Int)) = some (Int.negSucc m)
    rw [pyIntNat_digits _ (natRepr_toList_ne_nil (m + 1)) (natRepr_all_digits (m + 1)),
      natRepr_val]
    show some (-(((m + 1 : Nat)) : Int)) = some (Int.negSucc m)
    congr 1

/-! ### The three entity scans agree with the common scan -/

lemma current_option_eq (trayId : String) :
    ∀ spools, current_option trayId spools =
      (findActiveSpool trayId spools).map
        (fun r => match r with | some sp => spoolLabel sp | none => "None") := by
  intro spools
  induction spools with
  | nil => rfl
  | cons sp rest ih =>
    cases hat : sp.activeTray with
    | none =>
      simp only [current_option, findActiveSpool, hat]
      exact ih
    | some av =>
      by_cases ht : jtruthy av = true
      · cases hlv : loadsValue av with
        | some v =>
          simp only [current_option, findActiveSpool, trayMatch, hat, hlv, ht, if_true]
          cases heq : jeqStr v trayId
          · simp only [if_false]
            exact ih
          · simp only [if_true]
            rfl
        | none =>
          cases av with
          | str s =>
            simp only [current_option, findActiveSpool, trayMatch, hat, hlv, ht, if_true]
            cases heq : stripQuotes s == trayId
            · simp only [if_false]
              exact ih
            · simp only [if_true]
              rfl
          | null =>
            simp [jtruthy] at ht
          | bool b =>
            simp only [current_option, findActiveSpool, trayMatch, hat, hlv, ht, if_true]
            rfl
          | int n =>
            simp only [current_option, findActiveSpool, trayMatch, hat, hlv, ht, if_true]
            rfl
          | num lex =>
            simp only [current_option, findActiveSpool, trayMatch, hat, hlv, ht, if_true]
            rfl
          | arr xs =>
            simp only [current_option, findActiveSpool, trayMatch, hat, hlv, ht, if_true]
            rfl
          | obj fs =>
            simp only [current_option, findActiveSpool, trayMatch, hat, hlv, ht, if_true]
            rfl
      · simp only [current_option, findActiveSpool, trayMatch, hat,
          Bool.not_eq_true] at ht ⊢
        simp only [ht, Bool.false_eq_true, if_false]
        exact ih

lemma native_value_eq (trayId : String) :
    ∀ spools, native_value trayId spools =
      (findActiveSpool trayId spools).map
        (fun r => match r with
          | some sp => "Spool #" ++ toString sp.id
          | none => "No Spool") := by
  intro spools
  induction spools with
  | nil => rfl
  | cons sp rest ih =>
    cases hat : sp.activeTray with
    | none =>
      simp only [native_value, findActiveSpool, hat]
      exact ih
    | some av =>
      by_cases ht : jtruthy av = true
      · cases hlv : loadsValue av with
        | some v =>
          simp only [native_value, findActiveSpool, trayMatch, hat, hlv, ht, if_true]
          cases heq : jeqStr v trayId
          · simp only [if_false]
            exact ih
          · simp only [if_true]
            rfl
        | none =>
          cases av with
          | str s =>
            simp only [native_value, findActiveSpool, trayMatch, hat, hlv, ht, if_true]
            cases heq : stripQuotes s == trayId
            · simp only [if_false]
              exact ih
            · simp only [if_true]
              rfl
          | null =>
            simp [jtruthy] at ht
          | bool b =>
            simp only [native_value, findActiveSpool, trayMatch, hat, hlv, ht, if_true]
            rfl
          | int n =>
            simp only [native_value, findActiveSpool, trayMatch, hat, hlv, ht, if_true]
            rfl
          | num lex =>
            simp only [native_value, findActiveSpool, trayMatch, hat, hlv, ht, if_true]
            rfl
          | arr xs =>
            simp only [native_value, findActiveSpool, trayMatch, hat, hlv, ht, if_true]
            rfl
          | obj fs =>
            simp only [native_value, findActiveSpool, trayMatch, hat, hlv, ht, if_true]
            rfl
      · simp only [native_value, findActiveSpool, trayMatch, hat,
          Bool.not_eq_true] at ht ⊢
        simp only [ht, Bool.false_eq_true, if_false]
        exact ih

lemma findCurrentSpoolId_eq (trayId : String) :
    ∀ spools, findCurrentSpoolId trayId spools =
      (findActiveSpool trayId spools).map (Option.map Spool.id) := by
  intro spools
  induction spools with
  | nil => rfl
  | cons sp rest ih =>
    cases hat : sp.activeTray with
    | none =>
      simp only [findCurrentSpoolId, findActiveSpool, hat]
      exact ih
    | some av =>
      by_cases ht : jtruthy av = true
      · cases hlv : loadsValue av with
        | some v =>
          simp only [findCurrentSpoolId, findActiveSpool, trayMatch, hat, hlv, ht, if_true]
          cases heq : jeqStr v trayId
          · simp only [if_false]
            exact ih
          · simp only [if_true]
            rfl
        | none =>
          cases av with
          | str s =>
            simp only [findCurrentSpoolId, findActiveSpool, trayMatch, hat, hlv, ht, if_true]
            cases heq : stripQuotes s == trayId
            · simp only [if_false]
              exact ih
            · simp only [if_true]
              rfl
          | null =>
            simp [jtruthy] at ht
          | bool b =>
            simp only [findCurrentSpoolId, findActiveSpool, trayMatch, hat, hlv, ht, if_true]
            rfl
          | int n =>
            simp only [findCurrentSpoolId, findActiveSpool, trayMatch, hat, hlv, ht, if_true]
            rfl
          | num lex =>
            simp only [findCurrentSpoolId, findActiveSpool, trayMatch, hat, hlv, ht, if_true]
            rfl
          | arr xs =>
            simp only [findCurrentSpoolId, findActiveSpool, trayMatch, hat, hlv, ht, if_true]
            rfl
          | obj fs =>
            simp only [findCurrentSpoolId, findActiveSpool, trayMatch, hat, hlv, ht, if_true]
            rfl
      · simp only [findCurrentSpoolId, findActiveSpool, trayMatch, hat,
          Bool.not_eq_true] at ht ⊢
        simp only [ht, Bool.false_eq_true, if_false]
        exact ih

lemma findActiveSpool_mem (trayId : String) :
    ∀ spools sp, findActiveSpool trayId spools = .ok (some sp) → sp ∈ spools := by
  intro spools
  induction spools with
  | nil => intro sp h; exact absurd h (by simp [findActiveSpool])
  | cons hd rest ih =>
    intro sp h
    cases hat : hd.activeTray with
    | none =>
      simp only [findActiveSpool, hat] at h
      exact List.mem_cons_of_mem hd (ih sp h)
    | some av =>
      simp only [findActiveSpool, hat] at h
      cases htm : trayMatch trayId av with
      | error e => rw [htm] at h; exact absurd h (by simp)
      | ok b =>
        rw [htm] at h
        cases b with
        | true =>
          simp only [Except.ok.injEq, Option.some.injEq] at h
          subst h
          exact List.mem_cons_self hd rest
        | false => exact List.mem_cons_of_mem hd (ih sp h)

lemma json_loads_empty : json_loads ("") = none := rfl

/-- Under a nonempty tray id and benign active-tray fields, the common scan
is exactly the first spool satisfying the decoding relation of the spec. -/
lemma findActiveSpool_benign (trayId : String) (hne : trayId ≠ "") :
    ∀ spools, (∀ sp ∈ spools, benignTray sp = true) →
      findActiveSpool trayId spools = .ok (spools.find? (decodesToTray trayId)) := by
  intro spools
  induction spools with
  | nil => intro _; rfl
  | cons hd rest ih =>
    intro h
    have hb := h hd (List.mem_cons_self hd rest)
    have hrest := fun sp hsp => h sp (List.mem_cons_of_mem hd hsp)
    cases hat : hd.activeTray with
    | none =>
      simp only [findActiveSpool, hat, List.find?_cons, decodesToTray]
      exact ih hrest
    | some av =>
      cases av with
      | str s =>
        by_cases hse : s = ""
        · subst hse
          have htr : jtruthy (.str ("")) = false := by decide
          simp only [findActiveSpool, trayMatch, hat, htr, Bool.false_eq_true, if_false,
            List.find?_cons, decodesToTray, json_loads_empty]
          have hsq : (stripQuotes ("") == trayId) = false := by
            have : ("" : String) ≠ trayId := fun he => hne he.symm
            simpa [stripQuotes] using beq_eq_false_iff_ne.mpr this
          rw [hsq]
          exact ih hrest
        · have htr : jtruthy (.str s) = true := by
            simp [jtruthy, bne_iff_ne]
            exact hse
          cases hjl : json_loads s with
          | some v =>
            simp only [findActiveSpool, trayMatch, hat, htr, if_true, loadsValue, hjl,
              List.find?_cons, decodesToTray]
            cases hq : jeqStr v trayId
            · simp only [if_false]
              exact ih hrest
            · rfl
          | none =>
            simp only [findActiveSpool, trayMatch, hat, htr, if_true, loadsValue, hjl,
              List.find?_cons, decodesToTray]
            cases hq : stripQuotes s == trayId
            · simp only [if_false]
              exact ih hrest
            · rfl
      | null =>
        have htr : jtruthy JValue.null = false := rfl
        simp only [findActiveSpool, trayMatch, hat, htr, Bool.false_eq_true, if_false,
          List.find?_cons, decodesToTray]
        exact ih hrest
      | bool b =>
        simp only [benignTray, hat, Bool.not_eq_true'] at hb
        simp only [findActiveSpool, trayMatch, hat, hb, Bool.false_eq_true, if_false,
          List.find?_cons, decodesToTray]
        exact ih hrest
      | int n =>
        simp only [benignTray, hat, Bool.not_eq_true'] at hb
        simp only [findActiveSpool, trayMatch, hat, hb, Bool.false_eq_true, if_false,
          List.find?_cons, decodesToTray]
        exact ih hrest
      | num lex =>
        simp only [benignTray, hat, Bool.not_eq_true'] at hb
        simp only [findActiveSpool, trayMatch, hat, hb, Bool.false_eq_true, if_false,
          List.find?_cons, decodesToTray]
        exact ih hrest
      | arr xs =>
        simp only [benignTray, hat, Bool.not_eq_true'] at hb
        simp only [findActiveSpool, trayMatch, hat, hb, Bool.false_eq_true, if_false,
          List.find?_cons, decodesToTray]
        exact ih hrest
      | obj fs =>
        simp only [benignTray, hat, Bool.not_eq_true'] at hb
        simp only [findActiveSpool, trayMatch, hat, hb, Bool.false_eq_true, if_false,
          List.find?_cons, decodesToTray]
        exact ih hrest

/-! ### String facts and the structure of the spool label -/

lemma toList_append (a b : String) : (a ++ b).toList = a.toList ++ b.toList := rfl

lemma asString_toList (s : String) : s.toList.asString = s := by
  cases s
  rfl

lemma dropWhile_append_keep {p : Char → Bool} (xs ys : List Char)
    (h : ∀ c, ys.head? = some c → p c = false) :
    (xs ++ ys).dropWhile p = xs.dropWhile p ++ ys := by
  induction xs with
  | nil =>
    simp only [List.nil_append, List.dropWhile_nil]
    cases ys with
    | nil => rfl
    | cons y ys2 =>
      rw [List.dropWhile_cons, if_neg]
      simp [h y rfl]
  | cons x xs2 ih =>
    rw [List.cons_append, List.dropWhile_cons, List.dropWhile_cons]
    cases hx : p x with
    | false => simp [hx]
    | true => simp [hx, ih]

lemma takeWhile_all_true {p : Char → Bool} :
    ∀ xs : List Char, (∀ c ∈ xs, p c = true) → xs.takeWhile p = xs := by
  intro xs
  induction xs with
  | nil => intro _; rfl
  | cons x xs2 ih =>
    intro h
    rw [List.takeWhile_cons, if_pos (h x (List.mem_cons_self x xs2)),
      ih (fun c hc => h c (List.mem_cons_of_mem x hc))]

lemma takeWhile_append_break {p : Char → Bool} (y : Char) (ys : List Char) (hy : p y = false) :
    ∀ xs : List Char, (∀ c ∈ xs, p c = true) → (xs ++ y :: ys).takeWhile p = xs := by
  intro xs
  induction xs with
  | nil =>
    intro _
    rw [List.nil_append, List.takeWhile_cons, if_neg]
    simp [hy]
  | cons x xs2 ih =>
    intro h
    rw [List.cons_append, List.takeWhile_cons, if_pos (h x (List.mem_cons_self x xs2)),
      ih (fun c hc => h c (List.mem_cons_of_mem x hc))]

lemma filter_all_true {p : Char → Bool} :
    ∀ xs : List Char, (∀ c ∈ xs, p c = true) → xs.filter p = xs := by
  intro xs
  induction xs with
  | nil => intro _; rfl
  | cons x xs2 ih =>
    intro h
    rw [List.filter_cons, if_pos]
    · rw [ih (fun c hc => h c (List.mem_cons_of_mem x hc))]
    · simp [h x (List.mem_cons_self x xs2)]

/-- Stripping a string that starts with a hash sign and whose first token is
whitespace-free keeps the first token intact. -/
lemma strip_take_hash (I T : List Char) (hI : ∀ c ∈ I, isPyWs c = false) :
    (pyStripList ('#' :: (I ++ ' ' :: T))).takeWhile (fun c => c != ' ') = '#' :: I := by
  have hIh : ∀ c ∈ '#' :: I, isPyWs c = false := by
    intro c hc
    rcases List.mem_cons.mp hc with rfl | hc
    · decide
    · exact hI c hc
  have h1 : List.dropWhile isPyWs ('#' :: (I ++ ' ' :: T)) = '#' :: (I ++ ' ' :: T) := by
    rw [List.dropWhile_cons, if_neg]
    decide
  unfold pyStripList
  rw [h1]
  have h2 : ('#' :: (I ++ ' ' :: T)).reverse = (' ' :: T).reverse ++ ('#' :: I).reverse := by
    simp
  rw [h2, dropWhile_append_keep]
  · rw [List.reverse_append, List.reverse_reverse]
    have hsfx : (' ' :: T).reverse.dropWhile isPyWs <:+ (' ' :: T).reverse :=
      List.dropWhile_suffix isPyWs
    have hpre : ((' ' :: T).reverse.dropWhile isPyWs).reverse <+: (' ' :: T) := by
      obtain ⟨u, hu⟩ := hsfx
      refine ⟨u.reverse, ?_⟩
      calc ((' ' :: T).reverse.dropWhile isPyWs).reverse ++ u.reverse
          = (u ++ (' ' :: T).reverse.dropWhile isPyWs).reverse := by simp
        _ = (' ' :: T).reverse.reverse := by rw [hu]
        _ = ' ' :: T := by simp
    have hallp : ∀ c ∈ '#' :: I, (c != ' ') = true := by
      intro c hc
      simp only [bne_iff_ne, ne_eq]
      exact not_ws_ne_space (hIh c hc)
    cases hR : ((' ' :: T).reverse.dropWhile isPyWs).reverse with
    | nil =>
      rw [List.append_nil]
      exact takeWhile_all_true _ hallp
    | cons r R2 =>
      rcases hpre with ⟨u, hu⟩
      rw [hR, List.cons_append] at hu
      have hr : r = ' ' := by
        injection hu with h1 _
      subst hr
      exact takeWhile_append_break ' ' _ (by decide) _ hallp
  · intro c hc
    have : c ∈ ('#' :: I).reverse := by
      cases hrev : ('#' :: I).reverse with
      | nil => rw [hrev] at hc; exact absurd hc (by simp)
      | cons d ds =>
        rw [hrev] at hc
        simp only [List.head?_cons, Option.some.injEq] at hc
        rw [← hc]
        exact List.mem_cons_self d ds
    exact hIh c (List.mem_reverse.mp this)

lemma intToString_chars (i : Int) :
    ∀ c ∈ (toString i).toList, isDig c = true ∨ c = '-' := by
  cases i with
  | ofNat m =>
    intro c hc
    exact Or.inl (natRepr_all_digits m c hc)
  | negSucc m =>
    intro c hc
    have : (toString (Int.negSucc m)).toList = '-' :: (Nat.repr (m + 1)).toList := rfl
    rw [this] at hc
    rcases List.mem_cons.mp hc with rfl | hc
    · exact Or.inr rfl
    · exact Or.inl (natRepr_all_digits (m + 1) c hc)

lemma intToString_not_ws (i : Int) : ∀ c ∈ (toString i).toList, isPyWs c = false := by
  intro c hc
  rcases intToString_chars i c hc with hd | rfl
  · exact isDig_not_ws c hd
  · decide

lemma intToString_ne_nil (i : Int) : (toString i).toList ≠ [] := by
  cases i with
  | ofNat m => exact natRepr_toList_ne_nil m
  | negSucc m =>
    have : (toString (Int.negSucc m)).toList = '-' :: (Nat.repr (m + 1)).toList := rfl
    rw [this]
    simp

/-- The toList of the spool label, in first-token form. -/
lemma spoolLabel_toList (sp : Spool) :
    (spoolLabel sp).toList =
      pyStripList ('#' :: ((toString sp.id).toList ++ ' ' ::
        ((sp.vendorName.getD ("Unknown")).toList ++ ' ' ::
          ((sp.material.getD ("Unknown")).toList ++ ' ' ::
            (sp.filamentName.getD ("")).toList)))) := by
  have : (spoolLabel sp).toList =
      pyStripList (("#" ++ toString sp.id ++ " " ++ sp.vendorName.getD ("Unknown") ++ " " ++
        sp.material.getD ("Unknown") ++ " " ++ sp.filamentName.getD ("")).toList) := rfl
  rw [this]
  congr 1
  simp [toList_append]

/-- The assign path recovers exactly the spool id from the label. -/
lemma parseSpoolId_label (sp : Spool) : parseSpoolId (spoolLabel sp) = some sp.id := by
  unfold parseSpoolId
  rw [spoolLabel_toList, strip_take_hash _ _ (intToString_not_ws sp.id)]
  have hf : ('#' :: (toString sp.id).toList).filter (fun c => c != '#') =
      (toString sp.id).toList := by
    rw [List.filter_cons, if_neg]
    · apply filter_all_true
      intro c hc
      simp only [bne_iff_ne, ne_eq]
      rcases intToString_chars sp.id c hc with hd | rfl
      · exact isDig_ne_hash hd
      · decide
    · decide
  rw [hf, asString_toList]
  exact pyInt_intToString sp.id

lemma pyStripList_cons_head (c : Char) (hc : isPyWs c = false) (X : List Char) :
    ∃ t, pyStripList (c :: X) = c :: t := by
  unfold pyStripList
  rw [List.dropWhile_cons, if_neg (by simp [hc])]
  rw [show (c :: X).reverse = X.reverse ++ [c] from by simp]
  rw [dropWhile_append_keep]
  · rw [List.reverse_append]
    exact ⟨(X.reverse.dropWhile isPyWs).reverse, by simp⟩
  · intro d hd
    simp only [List.head?_cons, Option.some.injEq] at hd
    rw [← hd]
    exact hc

lemma spoolLabel_head (sp : Spool) : ∃ t, (spoolLabel sp).toList = '#' :: t := by
  rw [spoolLabel_toList]
  exact pyStripList_cons_head '#' (by decide) _

lemma spoolLabel_ne_none_sentinel (sp : Spool) : spoolLabel sp ≠ "None" := by
  obtain ⟨t, ht⟩ := spoolLabel_head sp
  intro he
  have hl : (spoolLabel sp).toList = ("None").toList := congrArg String.toList he
  rw [ht, show ("None").toList = ['N', 'o', 'n', 'e'] from rfl] at hl
  injection hl with h1 _
  exact absurd h1 (by decide)

lemma spool_value_ne_sentinel (i : Int) : ("Spool #" ++ toString i) ≠ "No Spool" := by
  intro he
  have hl := congrArg String.toList he
  rw [toList_append, show ("Spool #").toList = ['S', 'p', 'o', 'o', 'l', ' ', '#'] from rfl,
    show ("No Spool").toList = ['N', 'o', ' ', 'S', 'p', 'o', 'o', 'l'] from rfl,
    List.cons_append] at hl
  injection hl with h1 _
  exact absurd h1 (by decide)

lemma trayMatch_str_ok (trayId s : String) : ∃ b, trayMatch trayId (.str s) = .ok b := by
  unfold trayMatch
  by_cases ht : jtruthy (JValue.str s) = true
  · rw [ht]
    simp only [if_true]
    cases hjl : loadsValue (.str s) with
    | some v => exact ⟨jeqStr v trayId, rfl⟩
    | none => exact ⟨stripQuotes s == trayId, rfl⟩
  · rw [Bool.not_eq_true] at ht
    rw [ht]
    exact ⟨false, by simp⟩

/-- Benign spool lists never make the scan raise, for any tray id. -/
lemma findActiveSpool_benign_ok (trayId : String) :
    ∀ spools, (∀ sp ∈ spools, benignTray sp = true) →
      ∃ r, findActiveSpool trayId spools = .ok r := by
  intro spools
  induction spools with
  | nil => intro _; exact ⟨none, rfl⟩
  | cons hd rest ih =>
    intro h
    have hb := h hd (List.mem_cons_self hd rest)
    have hrest := fun sp hsp => h sp (List.mem_cons_of_mem hd hsp)
    cases hat : hd.activeTray with
    | none =>
      simp only [findActiveSpool, hat]
      exact ih hrest
    | some av =>
      cases av with
      | str s =>
        obtain ⟨b, hbm⟩ := trayMatch_str_ok trayId s
        simp only [findActiveSpool, hat, hbm]
        cases b with
        | true => exact ⟨some hd, rfl⟩
        | false => exact ih hrest
      | null =>
        simp only [findActiveSpool, hat, trayMatch]
        simp only [jtruthy, Bool.false_eq_true, if_false]
        exact ih hrest
      | bool b =>
        simp only [benignTray, hat, Bool.not_eq_true'] at hb
        simp only [findActiveSpool, hat, trayMatch, hb, Bool.false_eq_true, if_false]
        exact ih hrest
      | int n =>
        simp only [benignTray, hat, Bool.not_eq_true'] at hb
        simp only [findActiveSpool, hat, trayMatch, hb, Bool.false_eq_true, if_false]
        exact ih hrest
      | num lex =>
        simp only [benignTray, hat, Bool.not_eq_true'] at hb
        simp only [findActiveSpool, hat, trayMatch, hb, Bool.false_eq_true, if_false]
        exact ih hrest
      | arr xs =>
        simp only [benignTray, hat, Bool.not_eq_true'] at hb
        simp only [findActiveSpool, hat, trayMatch, hb, Bool.false_eq_true, if_false]
        exact ih hrest
      | obj fs =>
        simp only [benignTray, hat, Bool.not_eq_true'] at hb
        simp only [findActiveSpool, hat, trayMatch, hb, Bool.false_eq_true, if_false]
        exact ih hrest

/-! ### Concrete records used by the evaluations below -/

/-- The spec's example spool: id 7, vendor Prusa, material PLA, name Red,
assigned to tray-3 through a JSON-encoded active-tray value. -/
def spool7 : Spool :=
  ⟨7, some ("Prusa"), some ("PLA"), some ("Red"), some (.str ("\"tray-3\""))⟩

/-- A spool assigned to tray-3 through a raw, unquoted active-tray value. -/
def spoolFallback : Spool := ⟨8, none, none, none, some (.str ("tray-3"))⟩

/-- A spool whose active-tray value is an empty string (falsy). -/
def spoolEmptyTray : Spool := ⟨1, none, none, none, some (.str (""))⟩

/-- A spool whose active-tray value is a truthy non-string. -/
def spoolIntTray : Spool := ⟨1, none, none, none, some (.int 5)⟩

/-- A spool whose active-tray value is a string that is not JSON. -/
def spoolMalformed : Spool := ⟨2, none, none, none, some (.str ("not json"))⟩

/-- A spool with id 0 assigned to tray-1. -/
def spoolZero : Spool := ⟨0, none, none, none, some (.str ("\"tray-1\""))⟩

/-- Two further spools assigned to tray-1, for the duplicate case. -/
def spoolDupA : Spool := ⟨2, none, none, none, some (.str ("\"tray-1\""))⟩

def spoolDupB : Spool := ⟨3, none, none, none, some (.str ("\"tray-1\""))⟩

/-! ### The claims -/

/-- Claim C1 as stated is false on the code: with the empty tray identifier
and a spool whose active-tray value is the empty string, the spool's field
decodes via the quote-stripped fallback to the tray identifier, yet the
lookup skips the spool (the value is falsy) and returns the sentinel
instead of the spool's label. -/
theorem c1_counterexample :
    decodesToTray ("") spoolEmptyTray = true ∧
    current_option ("") [spoolEmptyTray] = .ok ("None") ∧
    spoolLabel spoolEmptyTray ≠ "None" :=
  ⟨rfl, rfl, spoolLabel_ne_none_sentinel _⟩

/-- Claim C1 (amended): for a nonempty tray identifier, over spool lists
whose active-tray fields are absent, falsy or strings, the lookup returns
the label of the first spool whose active-tray field decodes (via JSON
decoding or the quote-stripped fallback) to the tray identifier, and the
sentinel None when no spool's field so decodes. -/
theorem c1_lookup_first_match_or_sentinel (trayId : String) (spools : List Spool)
    (hne : trayId ≠ "") (hb : ∀ sp ∈ spools, benignTray sp = true) :
    (∀ sp, spools.find? (decodesToTray trayId) = some sp →
        current_option trayId spools = .ok (spoolLabel sp)) ∧
    (spools.find? (decodesToTray trayId) = none →
        current_option trayId spools = .ok ("None")) := by
  have h := findActiveSpool_benign trayId hne spools hb
  rw [current_option_eq, h]
  constructor
  · intro sp hsp
    rw [hsp]
    rfl
  · intro hnone
    rw [hnone]
    rfl

/-- Witness for C1: looking up tray-3 among the example spools returns the
label of the assigned spool; looking up tray-9 returns the sentinel. -/
theorem c1_witness :
    current_option ("tray-3") [spool7] = .ok (spoolLabel spool7) ∧
    current_option ("tray-9") [spool7] = .ok ("None") :=
  ⟨(c1_lookup_first_match_or_sentinel ("tray-3") [spool7] (by decide) (by decide)).1
      spool7 rfl,
   (c1_lookup_first_match_or_sentinel ("tray-9") [spool7] (by decide) (by decide)).2 rfl⟩

/-- Claim C2 as stated is false on the code: a truthy non-string active-tray
value fails JSON decoding (TypeError), and the fallback then raises an
uncaught AttributeError, so the lookup is not total. -/
theorem c2_counterexample :
    current_option ("tray-1") [spoolIntTray] = .error .attributeError := rfl

/-- Claim C2 (amended): a malformed string active-tray value (failing both
strict JSON decoding and the quote-stripped comparison) makes the lookup
pass over the spool and continue, and over spool lists whose active-tray
fields are absent, falsy or strings the lookup always completes without
an exception; a truthy non-string value, however, raises. -/
theorem c2_malformed_skipped_and_total (trayId : String) :
    (∀ (sp : Spool) (rest : List Spool) (s : String),
        sp.activeTray = some (.str s) → json_loads s = none →
        stripQuotes s ≠ trayId →
        current_option trayId (sp :: rest) = current_option trayId rest) ∧
    (∀ spools : List Spool, (∀ sp ∈ spools, benignTray sp = true) →
        ∃ r, current_option trayId spools = .ok r) := by
  constructor
  · intro sp rest s hat hjl hsq
    by_cases hse : s = ""
    · subst hse
      simp only [current_option, hat]
      rw [show jtruthy (JValue.str ("")) = false from rfl]
      simp
    · have ht : jtruthy (JValue.str s) = true := by
        simp [jtruthy, bne_iff_ne]
        exact hse
      simp only [current_option, hat, ht, if_true, loadsValue, hjl,
        beq_eq_false_iff_ne.mpr hsq, Bool.false_eq_true, if_false]
  · intro spools hb
    obtain ⟨r, hr⟩ := findActiveSpool_benign_ok trayId spools hb
    rw [current_option_eq, hr]
    cases r with
    | none => exact ⟨"None", rfl⟩
    | some sp => exact ⟨spoolLabel sp, rfl⟩

/-- Witness for C2: a non-JSON, non-matching string is skipped, and a benign
spool list yields a result without an exception. -/
theorem c2_witness :
    current_option ("t") [spoolMalformed] = current_option ("t") [] ∧
    ∃ r, current_option ("t") [spoolMalformed, spool7] = .ok r :=
  ⟨(c2_malformed_skipped_and_total ("t")).1 spoolMalformed [] ("not json") rfl rfl
      (by decide),
   (c2_malformed_skipped_and_total ("t")).2 [spoolMalformed, spool7] (by decide)⟩

/-- Claim C3 as stated is false on the code: in a list where two spools'
active-tray fields decode to the same tray identifier, an earlier spool
with a truthy non-string active-tray value makes the lookup raise, so the
first matching spool's label is not returned. -/
theorem c3_counterexample :
    decodesToTray ("tray-1") spoolDupA = true ∧
    decodesToTray ("tray-1") spoolDupB = true ∧
    current_option ("tray-1") [spoolIntTray, spoolDupA, spoolDupB] =
      .error .attributeError :=
  ⟨rfl, rfl, rfl⟩

/-- Claim C3 (amended): for a nonempty tray identifier, over spool lists
whose active-tray fields are absent, falsy or strings, when two or more
spools' fields decode to the tray identifier the lookup returns the label
of the first matching spool in list order. -/
theorem c3_first_match_wins (trayId : String) (spools : List Spool)
    (hne : trayId ≠ "") (hb : ∀ sp ∈ spools, benignTray sp = true)
    (hdup : 2 ≤ (spools.filter (decodesToTray trayId)).length) :
    ∃ sp, spools.find? (decodesToTray trayId) = some sp ∧
      current_option trayId spools = .ok (spoolLabel sp) := by
  have hfne : spools.filter (decodesToTray trayId) ≠ [] := by
    intro hmt
    rw [hmt] at hdup
    simp at hdup
  obtain ⟨x, hx⟩ := List.exists_mem_of_ne_nil _ hfne
  have hxm := List.mem_filter.mp hx
  have hsome : (spools.find? (decodesToTray trayId)).isSome :=
    List.find?_isSome.mpr ⟨x, hxm.1, hxm.2⟩
  obtain ⟨sp, hsp⟩ := Option.isSome_iff_exists.mp hsome
  refine ⟨sp, hsp, ?_⟩
  rw [current_option_eq, findActiveSpool_benign trayId hne spools hb, hsp]
  rfl

/-- Witness for C3: two spools are assigned to tray-3 (one via JSON, one via
the fallback); the lookup returns the first one's label. -/
theorem c3_witness :
    ∃ sp, ([spool7, spoolFallback].find? (decodesToTray ("tray-3"))) = some sp ∧
      current_option ("tray-3") [spool7, spoolFallback] = .ok (spoolLabel sp) :=
  c3_first_match_wins ("tray-3") [spool7, spoolFallback] (by decide) (by decide) (by decide)

/-- Claim C4: for a truthy string active-tray value, the matching step first
attempts strict JSON decoding and compares the decoded value; the
quote-stripped fallback determines the outcome only when JSON decoding
fails, and is never consulted when it succeeds. -/
theorem c4_json_first_fallback_on_failure (trayId : String) (sp : Spool)
    (rest : List Spool) (s : String)
    (hat : sp.activeTray = some (.str s)) (hne : s ≠ "") :
    (∀ v, json_loads s = some v →
        current_option trayId (sp :: rest) =
          (if jeqStr v trayId then .ok (spoolLabel sp)
           else current_option trayId rest)) ∧
    (json_loads s = none →
        current_option trayId (sp :: rest) =
          (if stripQuotes s == trayId then .ok (spoolLabel sp)
           else current_option trayId rest)) := by
  have ht : jtruthy (JValue.str s) = true := by
    simp [jtruthy, bne_iff_ne]
    exact hne
  constructor
  · intro v hv
    simp only [current_option, hat, ht, if_true, loadsValue, hv]
  · intro hv
    simp only [current_option, hat, ht, if_true, loadsValue, hv]

/-- Witness for C4: the JSON-quoted value matches tray-3 via the JSON path,
the raw value matches via the fallback, and a value that decodes to a
JSON number does not match the textually equal tray id 123 even though
the fallback would have matched it. -/
theorem c4_witness :
    current_option ("tray-3") [spool7] = .ok (spoolLabel spool7) ∧
    current_option ("tray-3") [spoolFallback] = .ok (spoolLabel spoolFallback) ∧
    current_option ("123") [(⟨9, none, none, none, some (.str ("123"))⟩ : Spool)] =
      .ok ("None") := by
  refine ⟨?_, ?_, ?_⟩
  · have h := (c4_json_first_fallback_on_failure ("tray-3") spool7 [] ("\"tray-3\"")
      rfl (by decide)).1 (.str ("tray-3")) rfl
    rw [h]
    rfl
  · have h := (c4_json_first_fallback_on_failure ("tray-3") spoolFallback [] ("tray-3")
      rfl (by decide)).2 rfl
    rw [h]
    rfl
  · have h := (c4_json_first_fallback_on_failure ("123")
      (⟨9, none, none, none, some (.str ("123"))⟩ : Spool) [] ("123")
      rfl (by decide)).1 (.int 123) rfl
    rw [h]
    rfl

lemma pyStrip_hash_eq_rstrip (s : String) (h : ∃ t, s.toList = '#' :: t) :
    pyStrip s = rstripTrailing s := by
  obtain ⟨t, ht⟩ := h
  unfold pyStrip rstripTrailing pyStripList
  rw [ht, List.dropWhile_cons, if_neg (by decide)]

/-- Claim C5: the label is the formatted id, vendor, material and name with
trailing whitespace trimmed (vendor and material default to Unknown and
name to the empty string); every spool's label appears in the options
list; every non-sentinel value of the lookup is the label of one of the
spools and appears in the options list; and the spec's example formats
as expected. -/
theorem c5_label_deterministic (sp : Spool) (spools : List Spool) :
    spoolLabel sp = specLabel sp ∧
    (sp ∈ spools → spoolLabel sp ∈ select_options spools) ∧
    (∀ trayId lbl, current_option trayId spools = .ok lbl → lbl ≠ "None" →
        ∃ sp2, sp2 ∈ spools ∧ lbl = spoolLabel sp2 ∧ lbl ∈ select_options spools) ∧
    spoolLabel (⟨7, some ("Prusa"), some ("PLA"), some ("Red"), none⟩ : Spool) =
      "#7 Prusa PLA Red" := by
  refine ⟨?_, ?_, ?_, rfl⟩
  · exact pyStrip_hash_eq_rstrip _ ⟨_, rfl⟩
  · intro hm
    simp only [select_options]
    exact List.mem_cons_of_mem _ (List.mem_map_of_mem spoolLabel hm)
  · intro trayId lbl hok hne
    rw [current_option_eq] at hok
    cases h : findActiveSpool trayId spools with
    | error e =>
      rw [h] at hok
      exact absurd hok (by simp [Except.map])
    | ok r =>
      rw [h] at hok
      cases r with
      | none =>
        simp only [Except.map] at hok
        injection hok with h2
        exact absurd h2.symm hne
      | some sp2 =>
        simp only [Except.map] at hok
        injection hok with h2
        have hmem := findActiveSpool_mem trayId spools sp2 h
        refine ⟨sp2, hmem, h2.symm, ?_⟩
        rw [← h2]
        simp only [select_options]
        exact List.mem_cons_of_mem _ (List.mem_map_of_mem spoolLabel hmem)

/-- Witness for C5: evaluated on the example spool. -/
theorem c5_witness :
    spoolLabel spool7 = specLabel spool7 ∧
    spoolLabel spool7 ∈ select_options [spool7] ∧
    ∃ sp2, sp2 ∈ [spool7] ∧ ("#7 Prusa PLA Red" : String) = spoolLabel sp2 ∧
      ("#7 Prusa PLA Red" : String) ∈ select_options [spool7] :=
  ⟨(c5_label_deterministic spool7 [spool7]).1,
   (c5_label_deterministic spool7 [spool7]).2.1 (List.mem_cons_self _ _),
   (c5_label_deterministic spool7 [spool7]).2.2.1 ("tray-3") ("#7 Prusa PLA Red")
     rfl (by decide)⟩

/-- Claim C6: selecting a label-shaped option parses the id from the leading
hash token and issues exactly one POST to the spools endpoint carrying
that id and the tray identifier, whatever status the service answers. -/
theorem c6_assign_posts_parsed_id (url trayId : String) (spools : List Spool)
    (status : Nat) (sp : Spool) :
    async_select_option url trayId spools (spoolLabel sp) status =
      .ok ⟨[.post (url ++ "/api/spools") sp.id trayId], status != 200, true⟩ := by
  unfold async_select_option
  rw [if_neg, parseSpoolId_label]
  intro hc
  exact spoolLabel_ne_none_sentinel sp (by simpa [beq_iff_eq] using hc)

/-- The unassign path in terms of the common scan. -/
lemma async_select_none (url trayId : String) (spools : List Spool) (status : Nat) :
    async_select_option url trayId spools ("None") status =
      (match findActiveSpool trayId spools with
       | .error e => .error e
       | .ok none => .ok ⟨[], false, true⟩
       | .ok (some sp) =>
         if sp.id != 0 then
           .ok ⟨[.delete (url ++ "/api/spools") sp.id], status != 200, true⟩
         else .ok ⟨[], false, true⟩) := by
  unfold async_select_option
  have hc : (("None" : String) == "None") = true := rfl
  rw [if_pos hc, findCurrentSpoolId_eq]
  cases h : findActiveSpool trayId spools with
  | error e => rfl
  | ok r =>
    cases r with
    | none => rfl
    | some sp => rfl

/-- Claim C7 as stated is false on the code: on the unassign path, a truthy
non-string active-tray value raises an uncaught AttributeError out of
async_select_option. -/
theorem c7_counterexample :
    async_select_option ("http://sp") ("t") [spoolIntTray] ("None") 200 =
      .error .attributeError := rfl

/-- Claim C7 (amended): on the assign path, and on the unassign path over
spools whose active-tray fields are absent, falsy or strings, the call
completes without raising, requests a refresh, issues at most one write
(no retry), and logs an error whenever a write receives a non-200
status; a truthy non-string active-tray value on the unassign path,
however, raises. -/
theorem c7_writes_log_and_do_not_raise (url trayId opt : String) (spools : List Spool)
    (status : Nat)
    (h : opt ≠ "None" ∨ ∀ sp ∈ spools, benignTray sp = true) :
    ∃ out, async_select_option url trayId spools opt status = .ok out ∧
      out.refreshed = true ∧ out.requests.length ≤ 1 ∧
      (status ≠ 200 → out.requests ≠ [] → out.loggedError = true) := by
  by_cases ho : opt = "None"
  · subst ho
    have hb : ∀ sp ∈ spools, benignTray sp = true := by
      rcases h with h | h
      · exact absurd rfl h
      · exact h
    obtain ⟨r, hr⟩ := findActiveSpool_benign_ok trayId spools hb
    cases r with
    | none =>
      have hstep : async_select_option url trayId spools ("None") status =
          .ok ⟨[], false, true⟩ := by
        rw [async_select_none, hr]
      rw [hstep]
      refine ⟨⟨[], false, true⟩, rfl, rfl, by simp, ?_⟩
      intro _ hne2
      exact absurd rfl hne2
    | some sp =>
      have hstep : async_select_option url trayId spools ("None") status =
          (if sp.id != 0 then
            (.ok ⟨[.delete (url ++ "/api/spools") sp.id], status != 200, true⟩ :
              Except PyErr SelectOutcome)
           else .ok ⟨[], false, true⟩) := by
        rw [async_select_none, hr]
      by_cases hz : sp.id = 0
      · rw [hstep, if_neg (by simp [hz])]
        refine ⟨⟨[], false, true⟩, rfl, rfl, by simp, ?_⟩
        intro _ hne2
        exact absurd rfl hne2
      · rw [hstep, if_pos (bne_iff_ne.mpr hz)]
        refine ⟨⟨[.delete (url ++ "/api/spools") sp.id], status != 200, true⟩,
          rfl, rfl, by simp, ?_⟩
        intro hst _
        exact bne_iff_ne.mpr hst
  · unfold async_select_option
    rw [if_neg (fun hc => ho (by simpa [beq_iff_eq] using hc))]
    cases hp : parseSpoolId opt with
    | some i =>
      refine ⟨⟨[.post (url ++ "/api/spools") i trayId], status != 200, true⟩,
        rfl, rfl, by simp, ?_⟩
      intro hst _
      exact bne_iff_ne.mpr hst
    | none =>
      refine ⟨⟨[], true, true⟩, rfl, rfl, by simp, ?_⟩
      intro _ hne2
      exact absurd rfl hne2

/-- Witness for C7: an unassign against benign spools with a failing service
completes, refreshes, issues one logged write. -/
theorem c7_witness :
    ∃ out, async_select_option ("u") ("tray-3") [spool7] ("None") 500 = .ok out ∧
      out.refreshed = true ∧ out.requests.length ≤ 1 ∧
      ((500 : Nat) ≠ 200 → out.requests ≠ [] → out.loggedError = true) :=
  c7_writes_log_and_do_not_raise ("u") ("tray-3") ("None") [spool7] 500
    (Or.inr (by decide))

/-- Claim C8: the refresh raises UpdateFailed on a transport exception or a
non-200 status from either request, returns the printers and spools
collections with empty-list defaults on success, and issues each GET at
most once (no retry). -/
theorem c8_refresh_wraps_failures (url : String) (p s : FetchResult) :
    (p = .exn → (async_get_data url p s).2 = .error ()) ∧
    (∀ st b, p = .response st b → st ≠ 200 → (async_get_data url p s).2 = .error ()) ∧
    (∀ b, p = .response 200 b → s = .exn → (async_get_data url p s).2 = .error ()) ∧
    (∀ b st2 b2, p = .response 200 b → s = .response st2 b2 → st2 ≠ 200 →
        (async_get_data url p s).2 = .error ()) ∧
    (∀ fs1 fs2, p = .response 200 (.obj fs1) → s = .response 200 (.obj fs2) →
        ∃ pd sd, (async_get_data url p s).2 = .ok ⟨pd, sd⟩ ∧
          dictGet (.obj fs1) ("printers") (.arr []) = some pd ∧
          dictGet (.obj fs2) ("spools") (.arr []) = some sd ∧
          (fs1.reverse.find? (fun kv => kv.1 == "printers") = none → pd = .arr []) ∧
          (fs2.reverse.find? (fun kv => kv.1 == "spools") = none → sd = .arr [])) ∧
    ((async_get_data url p s).1 = [url ++ "/api/printers"] ∨
     (async_get_data url p s).1 = [url ++ "/api/printers", url ++ "/api/spools"]) := by
  refine ⟨?_, ?_, ?_, ?_, ?_, ?_⟩
  · rintro rfl
    rfl
  · rintro st b rfl hst
    simp only [async_get_data]
    rw [if_pos (bne_iff_ne.mpr hst)]
  · rintro b rfl rfl
    simp only [async_get_data]
    rw [if_neg (by simp)]
  · rintro b st2 b2 rfl rfl hst
    simp only [async_get_data]
    rw [if_neg (by simp), if_pos (bne_iff_ne.mpr hst)]
  · rintro fs1 fs2 rfl rfl
    cases h1 : fs1.reverse.find? (fun kv => kv.1 == "printers") with
    | none =>
      have hd1 : dictGet (.obj fs1) ("printers") (.arr []) = some (.arr []) := by
        simp only [dictGet]
        rw [h1]
      cases h2 : fs2.reverse.find? (fun kv => kv.1 == "spools") with
      | none =>
        have hd2 : dictGet (.obj fs2) ("spools") (.arr []) = some (.arr []) := by
          simp only [dictGet]
          rw [h2]
        refine ⟨.arr [], .arr [], ?_, hd1, hd2, fun _ => rfl, fun _ => rfl⟩
        simp only [async_get_data]
        rw [if_neg (by simp), if_neg (by simp), hd1, hd2]
      | some kv =>
        have hd2 : dictGet (.obj fs2) ("spools") (.arr []) = some kv.2 := by
          simp only [dictGet]
          rw [h2]
        refine ⟨.arr [], kv.2, ?_, hd1, hd2, fun _ => rfl, ?_⟩
        · simp only [async_get_data]
          rw [if_neg (by simp), if_neg (by simp), hd1, hd2]
        · intro hc
          exact Option.noConfusion hc
    | some kv1 =>
      have hd1 : dictGet (.obj fs1) ("printers") (.arr []) = some kv1.2 := by
        simp only [dictGet]
        rw [h1]
      cases h2 : fs2.reverse.find? (fun kv => kv.1 == "spools") with
      | none =>
        have hd2 : dictGet (.obj fs2) ("spools") (.arr []) = some (.arr []) := by
          simp only [dictGet]
          rw [h2]
        refine ⟨kv1.2, .arr [], ?_, hd1, hd2, ?_, fun _ => rfl⟩
        · simp only [async_get_data]
          rw [if_neg (by simp), if_neg (by simp), hd1, hd2]
        · intro hc
          exact Option.noConfusion hc
      | some kv2 =>
        have hd2 : dictGet (.obj fs2) ("spools") (.arr []) = some kv2.2 := by
          simp only [dictGet]
          rw [h2]
        refine ⟨kv1.2, kv2.2, ?_, hd1, hd2, ?_, ?_⟩
        · simp only [async_get_data]
          rw [if_neg (by simp), if_neg (by simp), hd1, hd2]
        · intro hc
          exact Option.noConfusion hc
        · intro hc
          exact Option.noConfusion hc
  · cases p with
    | exn => exact Or.inl rfl
    | response st b =>
      cases s with
      | exn =>
        simp only [async_get_data]
        by_cases hst : st = 200
        · subst hst
          rw [if_neg (by simp)]
          exact Or.inr rfl
        · rw [if_pos (bne_iff_ne.mpr hst)]
          exact Or.inl rfl
      | response st2 b2 =>
        simp only [async_get_data]
        by_cases hst : st = 200
        · subst hst
          rw [if_neg (by simp)]
          by_cases hst2 : st2 = 200
          · subst hst2
            rw [if_neg (by simp)]
            cases hd1 : dictGet b ("printers") (.arr []) with
            | none => exact Or.inr rfl
            | some pd =>
              cases hd2 : dictGet b2 ("spools") (.arr []) with
              | none => exact Or.inr rfl
              | some sd => exact Or.inr rfl
          · rw [if_pos (bne_iff_ne.mpr hst2)]
            exact Or.inr rfl
        · rw [if_pos (bne_iff_ne.mpr hst)]
          exact Or.inl rfl

/-- Witness for C8: a 500 on the printers request fails the refresh; two
empty 200 bodies succeed with empty-list defaults. -/
theorem c8_witness :
    (async_get_data ("u") (.response 500 (.obj [])) .exn).2 = .error () ∧
    ∃ pd sd,
      (async_get_data ("u") (.response 200 (.obj [])) (.response 200 (.obj []))).2 =
        .ok ⟨pd, sd⟩ ∧
      dictGet (.obj []) ("printers") (.arr []) = some pd ∧
      dictGet (.obj []) ("spools") (.arr []) = some sd ∧
      (([] : List (String × JValue)).reverse.find? (fun kv => kv.1 == "printers") = none →
        pd = .arr []) ∧
      (([] : List (String × JValue)).reverse.find? (fun kv => kv.1 == "spools") = none →
        sd = .arr []) :=
  ⟨(c8_refresh_wraps_failures ("u") (.response 500 (.obj [])) .exn).2.1 500 (.obj [])
      rfl (by decide),
   (c8_refresh_wraps_failures ("u") (.response 200 (.obj []))
      (.response 200 (.obj []))).2.2.2.2.1 [] [] rfl rfl⟩

/-- Claim C9: the select and sensor entities agree: the select shows the
sentinel None exactly when the sensor shows No Spool, and a non-sentinel
select label and the sensor value come from one and the same matched
spool, so the embedded ids coincide. -/
theorem c9_select_sensor_agreement (trayId : String) (spools : List Spool) :
    (current_option trayId spools = .ok ("None") ↔
        native_value trayId spools = .ok ("No Spool")) ∧
    (∀ lbl, current_option trayId spools = .ok lbl → lbl ≠ "None" →
        ∃ sp, sp ∈ spools ∧ lbl = spoolLabel sp ∧
          native_value trayId spools = .ok ("Spool #" ++ toString sp.id)) := by
  rw [current_option_eq, native_value_eq]
  cases h : findActiveSpool trayId spools with
  | error e =>
    constructor
    · constructor
      · intro hx
        exact absurd hx (by simp [Except.map])
      · intro hx
        exact absurd hx (by simp [Except.map])
    · intro lbl hx
      exact absurd hx (by simp [Except.map])
  | ok r =>
    cases r with
    | none =>
      constructor
      · simp [Except.map]
      · intro lbl hx hne
        simp only [Except.map] at hx
        injection hx with h2
        exact absurd h2.symm hne
    | some sp =>
      constructor
      · constructor
        · intro hx
          simp only [Except.map] at hx
          injection hx with h2
          exact absurd h2 (spoolLabel_ne_none_sentinel sp)
        · intro hx
          simp only [Except.map] at hx
          injection hx with h2
          exact absurd h2 (spool_value_ne_sentinel sp.id)
      · intro lbl hx hne
        simp only [Except.map] at hx
        injection hx with h2
        exact ⟨sp, findActiveSpool_mem trayId spools sp h, h2.symm, rfl⟩

/-- Witness for C9: on the example data the select label and the sensor
value both come from spool 7. -/
theorem c9_witness :
    ∃ sp, sp ∈ [spool7] ∧ ("#7 Prusa PLA Red" : String) = spoolLabel sp ∧
      native_value ("tray-3") [spool7] = .ok ("Spool #" ++ toString sp.id) :=
  (c9_select_sensor_agreement ("tray-3") [spool7]).2 ("#7 Prusa PLA Red") rfl (by decide)

/-- Claim C10: selecting None issues a DELETE carrying the matched spool's
id exactly when the scan finds a spool and its id is truthy; no write at
all when no spool matches or the matched id is 0; and every completed
call requests a coordinator refresh. -/
theorem c10_unassign_behavior (url trayId : String) (spools : List Spool) (status : Nat) :
    (findActiveSpool trayId spools = .ok none →
        async_select_option url trayId spools ("None") status = .ok ⟨[], false, true⟩) ∧
    (∀ sp, findActiveSpool trayId spools = .ok (some sp) → sp.id ≠ 0 →
        async_select_option url trayId spools ("None") status =
          .ok ⟨[.delete (url ++ "/api/spools") sp.id], status != 200, true⟩) ∧
    (∀ sp, findActiveSpool trayId spools = .ok (some sp) → sp.id = 0 →
        async_select_option url trayId spools ("None") status = .ok ⟨[], false, true⟩) ∧
    (∀ out, async_select_option url trayId spools ("None") status = .ok out →
        out.refreshed = true) := by
  refine ⟨?_, ?_, ?_, ?_⟩
  · intro h
    rw [async_select_none, h]
  · intro sp h hz
    have hstep : async_select_option url trayId spools ("None") status =
        (if sp.id != 0 then
          (.ok ⟨[.delete (url ++ "/api/spools") sp.id], status != 200, true⟩ :
            Except PyErr SelectOutcome)
         else .ok ⟨[], false, true⟩) := by
      rw [async_select_none, h]
    rw [hstep, if_pos (bne_iff_ne.mpr hz)]
  · intro sp h hz
    have hstep : async_select_option url trayId spools ("None") status =
        (if sp.id != 0 then
          (.ok ⟨[.delete (url ++ "/api/spools") sp.id], status != 200, true⟩ :
            Except PyErr SelectOutcome)
         else .ok ⟨[], false, true⟩) := by
      rw [async_select_none, h]
    rw [hstep, if_neg (by simp [hz])]
  · intro out h
    rw [async_select_none] at h
    cases hf : findActiveSpool trayId spools with
    | error e =>
      rw [hf] at h
      exact absurd h (by simp)
    | ok r =>
      rw [hf] at h
      cases r with
      | none =>
        have h3 : Except.ok (⟨[], false, true⟩ : SelectOutcome) = Except.ok out := h
        injection h3 with h2
        rw [← h2]
      | some sp =>
        have h3 : (if sp.id != 0 then
            (.ok ⟨[.delete (url ++ "/api/spools") sp.id], status != 200, true⟩ :
              Except PyErr SelectOutcome)
           else .ok ⟨[], false, true⟩) = Except.ok out := h
        by_cases hz : sp.id = 0
        · rw [if_neg (by simp [hz])] at h3
          injection h3 with h2
          rw [← h2]
        · rw [if_pos (bne_iff_ne.mpr hz)] at h3
          injection h3 with h2
          rw [← h2]

/-- Witness for C10: a truthy matched id issues the DELETE, a matched id 0
issues nothing, and no match issues nothing. -/
theorem c10_witness :
    async_select_option ("u") ("tray-3") [spool7] ("None") 200 =
      .ok ⟨[.delete ("u" ++ "/api/spools") 7], false, true⟩ ∧
    async_select_option ("u") ("tray-1") [spoolZero] ("None") 200 = .ok ⟨[], false, true⟩ ∧
    async_select_option ("u") ("tray-9") [spool7] ("None") 200 = .ok ⟨[], false, true⟩ :=
  ⟨(c10_unassign_behavior ("u") ("tray-3") [spool7] 200).2.1 spool7 rfl (by decide),
   (c10_unassign_behavior ("u") ("tray-1") [spoolZero] 200).2.2.1 spoolZero rfl rfl,
   (c10_unassign_behavior ("u") ("tray-9") [spool7] 200).1 rfl⟩

end SpoolmanSync
